import Mathlib

/-!
Verification of the cache-stampede lab client
(`learning-materials/basic/incident-003-cache-stampede/lab/scripts/client.py`)
against its design specification.

The Redis store is modelled as a map from keys to entries carrying an
absolute expiration instant.  Time is measured in deciseconds (the lab's
polling interval `time.sleep(0.1)` is one unit), so the TTLs in the source
become: lock `ex=10` ↦ 100, canonical `setex(key, 10, ·)` ↦ 100, result
slot `setex(result_key, 5, ·)` ↦ 50, computing flag `setex(·, 5, "1")` ↦ 50,
the pre-populated entry `setex(key, 2, ·)` ↦ 20, and the 2-second
`expensive_computation` ↦ 20 units.

Each strategy is embedded twice:
* a sequential function for one client's control flow (`lockClient`,
  `coalesceClient`, `earlyClient`), where the stores seen by a waiter's
  successive polls are supplied by an environment `env : Nat → Store`
  standing for the writes of the other, concurrently running clients; and
* a small-step interleaved machine over explicit program counters
  (`lstep`/`lrun`, `cstep`/`crun`, `estep`/`erun`) for the claims about
  concurrent executions.  The machines fix the key to `"k"`; the lock/flag
  machines run at a fixed instant `0` (every schedule considered is far
  shorter than any TTL), while the early-expiration machine runs at
  instant 25, i.e. after the lab's 2.5-second pre-expiry sleep.
-/

namespace Stampede

/-- A stored value together with its absolute expiration instant
(write time + TTL, in deciseconds). -/
structure Entry where
  value : String
  expiresAt : Nat
deriving DecidableEq

/-- The Redis store: keys to live entries. -/
abbrev Store := String → Option Entry

/-- The empty (cold) store. -/
def coldStore : Store := fun _ => none

/-- `GET k` at instant `now`: an entry whose expiration has passed is
indistinguishable from an absent one. -/
def rget (s : Store) (now : Nat) (k : String) : Option String :=
  match s k with
  | some e => if now < e.expiresAt then some e.value else none
  | none => none

/-- `SETEX k ttl v` at instant `now`: unconditional upsert with expiry. -/
def rsetex (s : Store) (now : Nat) (k v : String) (ttl : Nat) : Store :=
  fun k' => if k' = k then some ⟨v, now + ttl⟩ else s k'

/-- `DEL k`. -/
def rdel (s : Store) (k : String) : Store :=
  fun k' => if k' = k then none else s k'

/-- `SET k v NX EX ttl` at instant `now`: succeeds exactly when the key is
absent or expired; returns the new store and whether the set happened. -/
def rsetnx (s : Store) (now : Nat) (k v : String) (ttl : Nat) : Store × Bool :=
  match rget s now k with
  | some _ => (s, false)
  | none => (rsetex s now k v ttl, true)

/-- Observable actions of one client, in program order. -/
inductive Event
  | getCanonical (found : Bool)
  | getFlag (found : Bool)
  | getSlot (found : Bool)
  | acquire (granted : Bool)
  | setFlag
  | compute (ok : Bool)
  | writeSlot
  | writeCanonical (ttl : Nat)
  | releaseLease
deriving DecidableEq

/-- Outcome of one sequential client run: the value the caller ends up
with (`Except` models a propagated Python exception), the store after the
client's own writes, and the trace of its actions. -/
structure RunOut where
  ret : Except Unit (Option String)
  store : Store
  trace : List Event

/-- The value produced by `expensive_computation` for client `id`
(source: `f"data_{key}_{time.time()}"`; distinct per computing client). -/
def compValue (id : Nat) : String := "data_k_" ++ toString id

/-- Waiter loop of the lock strategy (source lines 141-146):
`for _ in range(20): time.sleep(0.1); cached = r.get(key); if cached: return`.
Iteration `i` sleeps one unit and reads the canonical key from `env i` at
instant `t + i + 1`. -/
def lockWaitLoop (env : Nat → Store) (t : Nat) (key : String) :
    Nat → Nat → Option String × List Event
  | _, 0 => (none, [])
  | i, fuel + 1 =>
    match rget (env i) (t + i + 1) key with
    | some v => (some v, [Event.getCanonical true])
    | none =>
      let r := lockWaitLoop env t key (i + 1) fuel
      (r.1, Event.getCanonical false :: r.2)

/-- One client of the lock strategy `lock_cache_concurrent`
(source lines 117-148): probe cache; `SET key:lock locked NX EX 10`; if
granted compute inside `try`, `setex(key, 10, result)`, and `finally`
delete the lock; if denied poll the canonical key for up to 2 seconds and
on timeout compute anyway (the result is discarded: the source neither
stores nor returns it). -/
def lockClient (compute : Except Unit String) (env : Nat → Store)
    (s : Store) (t : Nat) (key : String) : RunOut :=
  match rget s t key with
  | some v => ⟨.ok (some v), s, [.getCanonical true]⟩
  | none =>
    let lockKey := key ++ ":lock"
    match rsetnx s t lockKey "locked" 100 with
    | (s1, true) =>
      match compute with
      | .ok v =>
        let s2 := rsetex s1 (t + 20) key v 100
        let s3 := rdel s2 lockKey
        ⟨.ok (some v), s3,
          [.getCanonical false, .acquire true, .compute true,
           .writeCanonical 100, .releaseLease]⟩
      | .error _ =>
        ⟨.error (), rdel s1 lockKey,
          [.getCanonical false, .acquire true, .compute false, .releaseLease]⟩
    | (s1, false) =>
      match lockWaitLoop env t key 0 20 with
      | (some v, tr) =>
        ⟨.ok (some v), s1, .getCanonical false :: .acquire false :: tr⟩
      | (none, tr) =>
        match compute with
        | .ok _ =>
          ⟨.ok none, s1,
            .getCanonical false :: .acquire false :: tr ++ [.compute true]⟩
        | .error _ =>
          ⟨.error (), s1,
            .getCanonical false :: .acquire false :: tr ++ [.compute false]⟩

/-- Waiter loop of the coalescing strategy (source lines 242-248):
`for _ in range(30): result = r.get(result_key); if result: …; time.sleep(0.1)`.
Iteration `i` reads the result slot from `env i` at instant `t + i`
(the read precedes the sleep).  On success it also reports at which
iteration the value was adopted. -/
def coalesceWaitLoop (env : Nat → Store) (t : Nat) (slotKey : String) :
    Nat → Nat → Option (String × Nat) × List Event
  | _, 0 => (none, [])
  | i, fuel + 1 =>
    match rget (env i) (t + i) slotKey with
    | some v => (some (v, i), [Event.getSlot true])
    | none =>
      let r := coalesceWaitLoop env t slotKey (i + 1) fuel
      (r.1, Event.getSlot false :: r.2)

/-- One client of the request-coalescing strategy
`request_coalescing_concurrent` (source lines 228-272): probe cache; read
the `key:computing` flag; if set, poll the `key:result` slot for up to
3 seconds, adopting it into the canonical key (`setex(key, 10, result)`)
when found, else give up; if the flag is unset, set it
(`setex(key:computing, 5, "1")`), re-check the result slot (adopting it
into the canonical key if present, without deleting the flag), else
compute, write the slot (`setex(result_key, 5, ·)`), write the canonical
key (`setex(key, 10, ·)`), and delete the flag.  A computation failure
propagates before any cleanup runs. -/
def coalesceClient (compute : Except Unit String) (env : Nat → Store)
    (s : Store) (t : Nat) (key : String) : RunOut :=
  match rget s t key with
  | some v => ⟨.ok (some v), s, [.getCanonical true]⟩
  | none =>
    let flagKey := key ++ ":computing"
    let slotKey := key ++ ":result"
    match rget s t flagKey with
    | some _ =>
      match coalesceWaitLoop env t slotKey 0 30 with
      | (some (v, i), tr) =>
        ⟨.ok (some v), rsetex (env i) (t + i) key v 100,
          .getCanonical false :: .getFlag true :: tr ++ [.writeCanonical 100]⟩
      | (none, tr) =>
        ⟨.ok none, s, .getCanonical false :: .getFlag true :: tr⟩
    | none =>
      let s1 := rsetex s t flagKey "1" 50
      match rget s1 t slotKey with
      | some v =>
        ⟨.ok (some v), rsetex s1 t key v 100,
          [.getCanonical false, .getFlag false, .setFlag, .getSlot true,
           .writeCanonical 100]⟩
      | none =>
        match compute with
        | .ok v =>
          let s2 := rsetex s1 (t + 20) slotKey v 50
          let s3 := rsetex s2 (t + 20) key v 100
          let s4 := rdel s3 flagKey
          ⟨.ok (some v), s4,
            [.getCanonical false, .getFlag false, .setFlag, .getSlot false,
             .compute true, .writeSlot, .writeCanonical 100, .releaseLease]⟩
        | .error _ =>
          ⟨.error (), s1,
            [.getCanonical false, .getFlag false, .setFlag, .getSlot false,
             .compute false]⟩

/-- One client of the early-expiration strategy
`early_expiration_concurrent` (source lines 183-192): probe the canonical
key; on a hit return it; on a miss compute (blocking for 2 seconds) and
`setex(key, 5, result)`. -/
def earlyClient (compute : Except Unit String) (s : Store) (t : Nat)
    (key : String) : RunOut :=
  match rget s t key with
  | some v => ⟨.ok (some v), s, [.getCanonical true]⟩
  | none =>
    match compute with
    | .ok v =>
      ⟨.ok (some v), rsetex s (t + 20) key v 50,
        [.getCanonical false, .compute true, .writeCanonical 50]⟩
    | .error _ => ⟨.error (), s, [.getCanonical false, .compute false]⟩

/-! ### Interleaved machines

Each strategy is also given as a per-client program counter plus a step
function performing one atomic Redis operation (or the computation) per
step; a schedule is a list of client indices. -/

/-- Number of events satisfying `p` in a trace. -/
def countE (p : Event → Bool) : List Event → Nat
  | [] => 0
  | e :: rest => (if p e then 1 else 0) + countE p rest

/-- A granted lock acquisition. -/
def isGrantEv : Event → Bool
  | .acquire true => true
  | _ => false

/-- Any lock acquisition attempt, granted or denied. -/
def isAcquireEv : Event → Bool
  | .acquire _ => true
  | _ => false

/-- A lease release (lock or computing-flag deletion). -/
def isReleaseEv : Event → Bool
  | .releaseLease => true
  | _ => false

/-- An invocation of the expensive computation. -/
def isComputeEv : Event → Bool
  | .compute _ => true
  | _ => false

/-- Program counters of one `lock_cache_concurrent` client. -/
inductive LPC
  | probe
  | acq
  | comp
  | wback (v : String)
  | rel (v : String)
  | wait (n : Nat)
  | selfcomp
  | done (r : Option String)
deriving DecidableEq

/-- One atomic step of lock-strategy client `id` (key fixed to `"k"`,
instant fixed to `0`: schedules are far shorter than any TTL). -/
def lstep (id : Nat) (pc : LPC) (s : Store) : LPC × Store × List Event :=
  match pc with
  | .probe =>
    match rget s 0 "k" with
    | some v => (.done (some v), s, [.getCanonical true])
    | none => (.acq, s, [.getCanonical false])
  | .acq =>
    match rsetnx s 0 "k:lock" "locked" 100 with
    | (s', true) => (.comp, s', [.acquire true])
    | (_, false) => (.wait 20, s, [.acquire false])
  | .comp => (.wback (compValue id), s, [.compute true])
  | .wback v => (.rel v, rsetex s 0 "k" v 100, [.writeCanonical 100])
  | .rel v => (.done (some v), rdel s "k:lock", [.releaseLease])
  | .wait 0 => (.selfcomp, s, [])
  | .wait (n + 1) =>
    match rget s 0 "k" with
    | some v => (.done (some v), s, [.getCanonical true])
    | none => (.wait n, s, [.getCanonical false])
  | .selfcomp => (.done none, s, [.compute true])
  | .done r => (.done r, s, [])

/-- Global configuration: the clients' program counters, the shared
store, and the accumulated event trace. -/
structure LCfg where
  clients : List LPC
  store : Store
  trace : List Event

/-- Step client `i`; an out-of-range index is a no-op. -/
def lstepAt (cfg : LCfg) (i : Nat) : LCfg :=
  match cfg.clients.get? i with
  | none => cfg
  | some pc =>
    match lstep i pc cfg.store with
    | (pc', s', ev) => ⟨cfg.clients.set i pc', s', cfg.trace ++ ev⟩

/-- Run a schedule of client indices. -/
def lrun : List Nat → LCfg → LCfg
  | [], cfg => cfg
  | i :: rest, cfg => lrun rest (lstepAt cfg i)

/-- `n` clients at the probe step, cold store, empty trace. -/
def linit (n : Nat) : LCfg := ⟨List.replicate n .probe, coldStore, []⟩

/-- Program counters of one `request_coalescing_concurrent` client. -/
inductive CPC
  | probe
  | checkFlag
  | setFlagPC
  | raceCheck
  | comp
  | wslot (v : String)
  | wcanon (v : String)
  | relFlag (v : String)
  | waitRC (n : Nat)
  | done (r : Option String)
deriving DecidableEq

/-- One atomic step of coalescing-strategy client `id` (key `"k"`,
instant `0`). -/
def cstep (id : Nat) (pc : CPC) (s : Store) : CPC × Store × List Event :=
  match pc with
  | .probe =>
    match rget s 0 "k" with
    | some v => (.done (some v), s, [.getCanonical true])
    | none => (.checkFlag, s, [.getCanonical false])
  | .checkFlag =>
    match rget s 0 "k:computing" with
    | some _ => (.waitRC 30, s, [.getFlag true])
    | none => (.setFlagPC, s, [.getFlag false])
  | .setFlagPC => (.raceCheck, rsetex s 0 "k:computing" "1" 50, [.setFlag])
  | .raceCheck =>
    match rget s 0 "k:result" with
    | some v =>
      (.done (some v), rsetex s 0 "k" v 100, [.getSlot true, .writeCanonical 100])
    | none => (.comp, s, [.getSlot false])
  | .comp => (.wslot (compValue id), s, [.compute true])
  | .wslot v => (.wcanon v, rsetex s 0 "k:result" v 50, [.writeSlot])
  | .wcanon v => (.relFlag v, rsetex s 0 "k" v 100, [.writeCanonical 100])
  | .relFlag v => (.done (some v), rdel s "k:computing", [.releaseLease])
  | .waitRC 0 => (.done none, s, [])
  | .waitRC (n + 1) =>
    match rget s 0 "k:result" with
    | some v =>
      (.done (some v), rsetex s 0 "k" v 100, [.getSlot true, .writeCanonical 100])
    | none => (.waitRC n, s, [.getSlot false])
  | .done r => (.done r, s, [])

/-- Global configuration of the coalescing machine. -/
structure CCfg where
  clients : List CPC
  store : Store
  trace : List Event

/-- Step coalescing client `i`. -/
def cstepAt (cfg : CCfg) (i : Nat) : CCfg :=
  match cfg.clients.get? i with
  | none => cfg
  | some pc =>
    match cstep i pc cfg.store with
    | (pc', s', ev) => ⟨cfg.clients.set i pc', s', cfg.trace ++ ev⟩

/-- Run a schedule on the coalescing machine. -/
def crun : List Nat → CCfg → CCfg
  | [], cfg => cfg
  | i :: rest, cfg => crun rest (cstepAt cfg i)

/-- `n` coalescing clients, cold store (cache, flag and slot all absent). -/
def cinit (n : Nat) : CCfg := ⟨List.replicate n .probe, coldStore, []⟩

/-- Program counters of one `early_expiration_concurrent` client. -/
inductive EPC
  | probe
  | comp
  | wr (v : String)
  | done (r : Option String)
deriving DecidableEq

/-- One atomic step of early-expiration client `id`, at instant 25
(after the lab's 2.5-second sleep past the 2-second pre-populated TTL). -/
def estep (id : Nat) (pc : EPC) (s : Store) : EPC × Store × List Event :=
  match pc with
  | .probe =>
    match rget s 25 "k" with
    | some v => (.done (some v), s, [.getCanonical true])
    | none => (.comp, s, [.getCanonical false])
  | .comp => (.wr (compValue id), s, [.compute true])
  | .wr v => (.done (some v), rsetex s 25 "k" v 50, [.writeCanonical 50])
  | .done r => (.done r, s, [])

/-- Global configuration of the early-expiration machine. -/
structure ECfg where
  clients : List EPC
  store : Store
  trace : List Event

/-- Step early-expiration client `i`. -/
def estepAt (cfg : ECfg) (i : Nat) : ECfg :=
  match cfg.clients.get? i with
  | none => cfg
  | some pc =>
    match estep i pc cfg.store with
    | (pc', s', ev) => ⟨cfg.clients.set i pc', s', cfg.trace ++ ev⟩

/-- Run a schedule on the early-expiration machine. -/
def erun : List Nat → ECfg → ECfg
  | [], cfg => cfg
  | i :: rest, cfg => erun rest (estepAt cfg i)

/-- The store the lab pre-populates: `setex(key, 2, "initial_value")`
at instant 0. -/
def einitStore : Store := rsetex coldStore 0 "k" "initial_value" 20

/-- `n` early-expiration clients over the pre-populated store. -/
def einit (n : Nat) : ECfg := ⟨List.replicate n .probe, einitStore, []⟩

/-- Is this client currently holding the lock (between a granted acquire
and the corresponding release)? -/
def isHolder : LPC → Bool
  | .comp => true
  | .wback _ => true
  | .rel _ => true
  | _ => false

/-- Number of clients currently holding the lock. -/
def holders : List LPC → Nat
  | [] => 0
  | pc :: rest => (if isHolder pc then 1 else 0) + holders rest

/-- Is the lock key live in the store (machine instant `0`)? -/
def lockLive (s : Store) : Bool := (rget s 0 "k:lock").isSome
/-- The lock-machine invariant: the granted acquires exceed the releases
by exactly the number of clients in their filler section, the lock key is
live exactly when such a client exists, and there is at most one. -/
def LInv (cfg : LCfg) : Prop :=
  countE isGrantEv cfg.trace = countE isReleaseEv cfg.trace + holders cfg.clients
    ∧ (lockLive cfg.store = true ↔ holders cfg.clients = 1)
    ∧ holders cfg.clients ≤ 1


/-! ### Concrete inputs used by witnesses and counterexamples -/

/-- A store holding only a fresh canonical entry for `"k"`. -/
def hitStore : Store := fun k' => if k' = "k" then some ⟨"hit", 100⟩ else none

/-- A store in which another process holds the lock for `"k"`. -/
def lockHeldStore : Store :=
  fun k' => if k' = "k:lock" then some ⟨"locked", 100⟩ else none

/-- A store in which another process has set the computing flag. -/
def flagSetStore : Store :=
  fun k' => if k' = "k:computing" then some ⟨"1", 100⟩ else none

/-- A store holding only a result-slot value for `"k"`. -/
def slotStore : Store := fun k' => if k' = "k:result" then some ⟨"w", 100⟩ else none

/-- An environment in which no other client ever writes anything. -/
def emptyEnv : Nat → Store := fun _ => coldStore

/-- An environment in which the canonical entry is present at every poll
but the result slot never is. -/
def canonEnv : Nat → Store :=
  fun _ => fun k' => if k' = "k" then some ⟨"vv", 1000⟩ else none

/-- An environment in which the result slot is present at every poll. -/
def slotEnv : Nat → Store :=
  fun _ => fun k' => if k' = "k:result" then some ⟨"sv", 1000⟩ else none

/-- An environment in which both the canonical entry and the result slot
are present at every poll. -/
def bothEnv : Nat → Store :=
  fun _ => fun k' =>
    if k' = "k" then some ⟨"vv", 1000⟩
    else if k' = "k:result" then some ⟨"sv", 1000⟩ else none

/-! ### Store lemmas -/

theorem rget_rsetex_self (s : Store) (now : Nat) (k v : String) (ttl m : Nat) :
    rget (rsetex s now k v ttl) m k = if m < now + ttl then some v else none := by
  simp [rget, rsetex]

theorem rget_rsetex_ne (s : Store) (now : Nat) (k v : String) (ttl m : Nat)
    (k' : String) (h : k' ≠ k) :
    rget (rsetex s now k v ttl) m k' = rget s m k' := by
  simp [rget, rsetex, h]

theorem rget_rdel_self (s : Store) (k : String) (m : Nat) :
    rget (rdel s k) m k = none := by
  simp [rget, rdel]

theorem rget_rdel_ne (s : Store) (k k' : String) (m : Nat) (h : k' ≠ k) :
    rget (rdel s k) m k' = rget s m k' := by
  simp [rget, rdel, h]

/-- A key that reads as absent stays absent at any later instant (absence
is either true absence or expiry, and expiry is monotone in time). -/
theorem rget_none_mono (s : Store) (t t' : Nat) (k : String)
    (h : rget s t k = none) (hle : t ≤ t') : rget s t' k = none := by
  unfold rget at h ⊢
  cases hs : s k with
  | none => rfl
  | some e =>
    rw [hs] at h
    by_cases hlt : t < e.expiresAt
    · simp [hlt] at h
    · have hlt' : ¬ t' < e.expiresAt := by omega
      simp [hlt']

/-! ### Wait-loop lemmas -/

/-- If the canonical key is absent at every instant a lock waiter polls,
the waiter's loop runs its full `fuel` iterations and reports nothing. -/
theorem lockWaitLoop_none (env : Nat → Store) (t : Nat) (key : String) :
    ∀ fuel i, (∀ j, j < fuel → rget (env (i + j)) (t + (i + j) + 1) key = none) →
      lockWaitLoop env t key i fuel =
        (none, List.replicate fuel (Event.getCanonical false)) := by
  intro fuel
  induction fuel with
  | zero => intro i _; rfl
  | succ f ih =>
    intro i h
    have h0 : rget (env i) (t + i + 1) key = none := by
      have := h 0 (Nat.succ_pos f)
      simpa using this
    have hrec := ih (i + 1) (fun j hj => by
      have hj' := h (j + 1) (by omega)
      have e : i + (j + 1) = i + 1 + j := by omega
      rw [e] at hj'
      exact hj')
    simp [lockWaitLoop, h0, hrec, List.replicate_succ]

/-- If the result slot is absent at every instant a coalescing waiter
polls, its loop runs its full `fuel` iterations and reports nothing. -/
theorem coalesceWaitLoop_none (env : Nat → Store) (t : Nat) (slotKey : String) :
    ∀ fuel i, (∀ j, j < fuel → rget (env (i + j)) (t + (i + j)) slotKey = none) →
      coalesceWaitLoop env t slotKey i fuel =
        (none, List.replicate fuel (Event.getSlot false)) := by
  intro fuel
  induction fuel with
  | zero => intro i _; rfl
  | succ f ih =>
    intro i h
    have h0 : rget (env i) (t + i) slotKey = none := by
      have := h 0 (Nat.succ_pos f)
      simpa using this
    have hrec := ih (i + 1) (fun j hj => by
      have hj' := h (j + 1) (by omega)
      have e : i + (j + 1) = i + 1 + j := by omega
      rw [e] at hj'
      exact hj')
    simp [coalesceWaitLoop, h0, hrec, List.replicate_succ]

/-! ### Lock-machine mutual-exclusion invariant -/

theorem countE_append (p : Event → Bool) (a b : List Event) :
    countE p (a ++ b) = countE p a + countE p b := by
  induction a with
  | nil => simp [countE]
  | cons e rest ih => simp [countE, ih]; omega


theorem holders_set (cs : List LPC) (i : Nat) (pc pc' : LPC)
    (h : cs.get? i = some pc) :
    holders (cs.set i pc') + (if isHolder pc then 1 else 0) =
      holders cs + (if isHolder pc' then 1 else 0) := by
  induction cs generalizing i with
  | nil => simp at h
  | cons a rest ih =>
    cases i with
    | zero =>
      simp at h
      subst h
      simp [holders]
      omega
    | succ j =>
      have := ih j h
      simp [holders]
      omega

theorem holders_pos (cs : List LPC) (i : Nat) (pc : LPC)
    (h : cs.get? i = some pc) (hp : isHolder pc = true) : 1 ≤ holders cs := by
  induction cs generalizing i with
  | nil => simp at h
  | cons a rest ih =>
    cases i with
    | zero =>
      simp at h
      subst h
      simp [holders, hp]
    | succ j =>
      have := ih j h
      simp [holders]
      omega

theorem holders_replicate_probe (n : Nat) :
    holders (List.replicate n LPC.probe) = 0 := by
  induction n with
  | zero => rfl
  | succ m ih => simp [List.replicate_succ, holders, isHolder, ih]


theorem LInv_def (cs : List LPC) (s : Store) (tr : List Event) :
    LInv ⟨cs, s, tr⟩ ↔
      (countE isGrantEv tr = countE isReleaseEv tr + holders cs
        ∧ (lockLive s = true ↔ holders cs = 1)
        ∧ holders cs ≤ 1) := Iff.rfl

theorem LInv_linit (n : Nat) : LInv (linit n) := by
  refine ⟨?_, ?_, ?_⟩ <;>
    simp [linit, countE, holders_replicate_probe, lockLive, rget, coldStore]

theorem lockLive_rsetex_canonical (s : Store) (v : String) :
    lockLive (rsetex s 0 "k" v 100) = lockLive s := by
  unfold lockLive
  rw [rget_rsetex_ne s 0 "k" v 100 0 "k:lock" (by decide)]

theorem lockLive_acquire (s : Store) :
    lockLive (rsetex s 0 "k:lock" "locked" 100) = true := by
  unfold lockLive
  rw [rget_rsetex_self]
  norm_num

theorem lockLive_release (s : Store) : lockLive (rdel s "k:lock") = false := by
  unfold lockLive
  rw [rget_rdel_self]
  rfl

/-- A step that neither grants nor releases the lock, does not move a
client into or out of the filler section, and leaves the lock key's
liveness unchanged preserves the invariant. -/
theorem LInv_step_frame (cs : List LPC) (s s' : Store) (tr ev : List Event)
    (i : Nat) (pc pc' : LPC) (hg : cs.get? i = some pc)
    (hH : isHolder pc = isHolder pc')
    (hL : lockLive s' = lockLive s)
    (hgr : countE isGrantEv ev = 0) (hre : countE isReleaseEv ev = 0)
    (hinv : LInv ⟨cs, s, tr⟩) :
    LInv ⟨cs.set i pc', s', tr ++ ev⟩ := by
  rw [LInv_def] at hinv ⊢
  obtain ⟨h1, h2, h3⟩ := hinv
  have hs := holders_set cs i pc pc' hg
  rw [hH] at hs
  have hh : holders (cs.set i pc') = holders cs := by omega
  refine ⟨?_, ?_, ?_⟩
  · simp only [countE_append, hgr, hre, hh]
    omega
  · simpa [hh, hL] using h2
  · simpa [hh] using h3

theorem LInv_lstepAt (cfg : LCfg) (i : Nat) (h : LInv cfg) :
    LInv (lstepAt cfg i) := by
  obtain ⟨cs, s, tr⟩ := cfg
  rcases hg : cs.get? i with _ | pc
  · unfold lstepAt
    rw [hg]
    exact h
  · rw [LInv_def] at h
    obtain ⟨h1, h2, h3⟩ := h
    cases pc with
    | probe =>
      rcases hr : rget s 0 "k" with _ | v
      · simp only [lstepAt, hg, lstep, hr]
        exact LInv_step_frame cs s s tr _ i _ .acq hg rfl rfl rfl rfl
          ((LInv_def cs s tr).mpr ⟨h1, h2, h3⟩)
      · simp only [lstepAt, hg, lstep, hr]
        exact LInv_step_frame cs s s tr _ i _ (.done (some v)) hg rfl rfl rfl rfl
          ⟨h1, h2, h3⟩
    | acq =>
      rcases hq : rget s 0 "k:lock" with _ | e
      · -- lock key absent: the acquire is granted
        have hl : lockLive s = false := by simp [lockLive, hq]
        have h0 : holders cs = 0 := by
          by_contra hne
          have hone : holders cs = 1 := by omega
          have := h2.mpr hone
          rw [hl] at this
          exact Bool.noConfusion this
        have hs := holders_set cs i .acq .comp hg
        simp [isHolder] at hs
        simp only [lstepAt, hg, lstep, rsetnx, hq]
        rw [LInv_def]
        refine ⟨?_, ?_, ?_⟩
        · simp [countE_append, countE, isGrantEv, isReleaseEv]
          omega
        · rw [lockLive_acquire]
          constructor
          · intro _; omega
          · intro _; rfl
        · omega
      · -- lock key live: denied
        simp only [lstepAt, hg, lstep, rsetnx, hq]
        exact LInv_step_frame cs s s tr _ i _ (.wait 20) hg rfl rfl rfl rfl
          ⟨h1, h2, h3⟩
    | comp =>
      simp only [lstepAt, hg, lstep]
      exact LInv_step_frame cs s s tr _ i _ (.wback (compValue i)) hg rfl rfl rfl rfl
        ⟨h1, h2, h3⟩
    | wback v =>
      simp only [lstepAt, hg, lstep]
      exact LInv_step_frame cs s _ tr _ i _ (.rel v) hg rfl
        (lockLive_rsetex_canonical s v) rfl rfl ⟨h1, h2, h3⟩
    | rel v =>
      have hpos : 1 ≤ holders cs := holders_pos cs i _ hg rfl
      have hone : holders cs = 1 := by omega
      have hs := holders_set cs i (.rel v) (.done (some v)) hg
      simp [isHolder] at hs
      have hz : holders (cs.set i (.done (some v))) = 0 := by omega
      simp only [lstepAt, hg, lstep]
      rw [LInv_def]
      refine ⟨?_, ?_, ?_⟩
      · simp [countE_append, countE, isGrantEv, isReleaseEv, hz]
        omega
      · rw [lockLive_release, hz]
        simp
      · omega
    | wait n =>
      cases n with
      | zero =>
        simp only [lstepAt, hg, lstep]
        exact LInv_step_frame cs s s tr _ i _ .selfcomp hg rfl rfl rfl rfl
          ⟨h1, h2, h3⟩
      | succ m =>
        rcases hr : rget s 0 "k" with _ | v
        · simp only [lstepAt, hg, lstep, hr]
          exact LInv_step_frame cs s s tr _ i _ (.wait m) hg rfl rfl rfl rfl
            ⟨h1, h2, h3⟩
        · simp only [lstepAt, hg, lstep, hr]
          exact LInv_step_frame cs s s tr _ i _ (.done (some v)) hg rfl rfl rfl rfl
            ⟨h1, h2, h3⟩
    | selfcomp =>
      simp only [lstepAt, hg, lstep]
      exact LInv_step_frame cs s s tr _ i _ (.done none) hg rfl rfl rfl rfl
        ⟨h1, h2, h3⟩
    | done r =>
      simp only [lstepAt, hg, lstep]
      exact LInv_step_frame cs s s tr _ i _ (.done r) hg rfl rfl rfl rfl
        ⟨h1, h2, h3⟩

theorem LInv_lrun (sched : List Nat) (cfg : LCfg) (h : LInv cfg) :
    LInv (lrun sched cfg) := by
  induction sched generalizing cfg with
  | nil => exact h
  | cons i rest ih => exact ih _ (LInv_lstepAt cfg i h)

/-! ### Claims -/

/-- C1 (counterexample): the claim that for N concurrent `Get` calls on
the same key from a cold cache the expensive computation is invoked
exactly once is false for the request-coalescing variant: its
check-then-set of the `computing` flag is not atomic, so with two clients
and the interleaving in which both read the flag as absent before either
sets it, both become fillers and the computation runs twice. -/
theorem claim_C1_counterexample :
    countE isComputeEv (crun [0, 1, 0, 1, 0, 1, 0, 1, 0, 1] (cinit 2)).trace = 2 := by
  decide

/-- C1 (amended): in the lock-based variant the `SET NX` acquire is
atomic, so at most one caller is ever granted fill rights while a lease
is live: over any schedule of any number of clients, the number of
granted acquires never exceeds the number of lock releases plus one
(grants and releases alternate), and every denied caller enters the
waiter loop (`lstep`'s denied branch).  The coalescing variant does not
enjoy exactly-once (see the counterexample). -/
theorem claim_C1_amended (n : Nat) (sched : List Nat) :
    countE isGrantEv (lrun sched (linit n)).trace ≤
      countE isReleaseEv (lrun sched (linit n)).trace + 1 := by
  obtain ⟨h1, h2, h3⟩ := LInv_lrun sched (linit n) (LInv_linit n)
  omega

/-- C8: the fast path.  Whenever the cache holds a present, unexpired
entry for the key, both variants return that value, leave the store
untouched, and their trace is a single cache read: no lease traffic and
no writes. -/
theorem claim_C8_fast_path (s : Store) (t : Nat) (env : Nat → Store)
    (c : Except Unit String) (v : String) (h : rget s t "k" = some v) :
    lockClient c env s t "k" = ⟨.ok (some v), s, [.getCanonical true]⟩
      ∧ coalesceClient c env s t "k" = ⟨.ok (some v), s, [.getCanonical true]⟩ := by
  constructor <;> simp [lockClient, coalesceClient, h]

/-- Witness for C8 at a concrete warm store. -/
theorem claim_C8_witness :
    rget hitStore 0 "k" = some "hit"
      ∧ lockClient (.ok "cv") emptyEnv hitStore 0 "k" =
          ⟨.ok (some "hit"), hitStore, [.getCanonical true]⟩ :=
  ⟨by decide, (claim_C8_fast_path hitStore 0 emptyEnv (.ok "cv") "hit" (by decide)).1⟩

/-- C9: every lease is written with a finite TTL, so a filler that
crashes immediately after a granted acquire self-heals: the first
acquire on a cold key is granted, its lock entry is expired at any
instant `fillTTL` (100 deciseconds) later, and a second `Get` issued then
is granted the lease, computes, commits, and releases — no permanent
deadlock. -/
theorem claim_C9_crash_recovery (s : Store) (t t' : Nat) (v : String)
    (env : Nat → Store)
    (hk : rget s t "k" = none) (hl : rget s t "k:lock" = none)
    (ht : t + 100 ≤ t') :
    (rsetnx s t "k:lock" "locked" 100).2 = true
      ∧ rget (rsetnx s t "k:lock" "locked" 100).1 t' "k:lock" = none
      ∧ (lockClient (.ok v) env (rsetnx s t "k:lock" "locked" 100).1 t' "k").ret =
          .ok (some v)
      ∧ (lockClient (.ok v) env (rsetnx s t "k:lock" "locked" 100).1 t' "k").trace =
          [.getCanonical false, .acquire true, .compute true,
           .writeCanonical 100, .releaseLease] := by
  have hs1 : rsetnx s t "k:lock" "locked" 100 =
      (rsetex s t "k:lock" "locked" 100, true) := by
    simp [rsetnx, hl]
  have hlock : rget (rsetex s t "k:lock" "locked" 100) t' "k:lock" = none := by
    rw [rget_rsetex_self]
    have hnot : ¬ t' < t + 100 := by omega
    simp [hnot]
  have hcold : rget (rsetex s t "k:lock" "locked" 100) t' "k" = none := by
    rw [rget_rsetex_ne s t "k:lock" "locked" 100 t' "k" (by decide)]
    exact rget_none_mono s t t' "k" hk (by omega)
  refine ⟨by rw [hs1], by rw [hs1]; exact hlock, ?_, ?_⟩ <;>
    · rw [hs1]
      simp [lockClient, rsetnx, hcold, hlock]

/-- Witness for C9: crash at instant 0, retry at instant 100. -/
theorem claim_C9_witness :
    (rsetnx coldStore 0 "k:lock" "locked" 100).2 = true
      ∧ rget (rsetnx coldStore 0 "k:lock" "locked" 100).1 100 "k:lock" = none
      ∧ (lockClient (.ok "v2") emptyEnv
          (rsetnx coldStore 0 "k:lock" "locked" 100).1 100 "k").ret = .ok (some "v2")
      ∧ (lockClient (.ok "v2") emptyEnv
          (rsetnx coldStore 0 "k:lock" "locked" 100).1 100 "k").trace =
          [.getCanonical false, .acquire true, .compute true,
           .writeCanonical 100, .releaseLease] :=
  claim_C9_crash_recovery coldStore 0 100 "v2" emptyEnv (by decide) (by decide)
    (by decide)

/-- C2 (counterexample): the claim that a filler whose computation fails
releases its lease immediately is false for the request-coalescing
variant: on a cold store with a failing computation the exception
propagates, but the `computing` flag — its lease — is still live in the
store immediately afterwards (the deletion on line 269 is only reached
on success; there is no try/finally). -/
theorem claim_C2_counterexample :
    (coalesceClient (.error ()) emptyEnv coldStore 0 "k").ret = .error ()
      ∧ rget (coalesceClient (.error ()) emptyEnv coldStore 0 "k").store 0
          "k:computing" = some "1" :=
  ⟨rfl, by decide⟩

/-- C2 (amended): on computation failure both variants propagate the
failure and never write the canonical entry or the result slot, so any
subsequent `Get` still observes a miss (no poisoning); the lock-based
filler deletes its lock immediately (try/finally), while the coalescing
filler leaves the `computing` flag to expire on its own 5-second TTL
rather than releasing it. -/
theorem claim_C2_amended (s : Store) (t t' : Nat) (env : Nat → Store)
    (hk : rget s t "k" = none) (hl : rget s t "k:lock" = none)
    (hf : rget s t "k:computing" = none) (hsl : rget s t "k:result" = none)
    (ht : t ≤ t') :
    (lockClient (.error ()) env s t "k").ret = .error ()
      ∧ rget (lockClient (.error ()) env s t "k").store t' "k" = none
      ∧ rget (lockClient (.error ()) env s t "k").store t "k:lock" = none
      ∧ (coalesceClient (.error ()) env s t "k").ret = .error ()
      ∧ rget (coalesceClient (.error ()) env s t "k").store t' "k" = none
      ∧ rget (coalesceClient (.error ()) env s t "k").store t' "k:result" = none
      ∧ (t' < t + 50 →
          rget (coalesceClient (.error ()) env s t "k").store t' "k:computing" =
            some "1")
      ∧ (t + 50 ≤ t' →
          rget (coalesceClient (.error ()) env s t "k").store t' "k:computing" =
            none) := by
  have hL : lockClient (.error ()) env s t "k" =
      ⟨.error (), rdel (rsetex s t "k:lock" "locked" 100) "k:lock",
        [.getCanonical false, .acquire true, .compute false, .releaseLease]⟩ := by
    simp [lockClient, rsetnx, hk, hl]
  have hslf : rget (rsetex s t "k:computing" "1" 50) t "k:result" = none := by
    rw [rget_rsetex_ne s t "k:computing" "1" 50 t "k:result" (by decide)]
    exact hsl
  have hC : coalesceClient (.error ()) env s t "k" =
      ⟨.error (), rsetex s t "k:computing" "1" 50,
        [.getCanonical false, .getFlag false, .setFlag, .getSlot false,
         .compute false]⟩ := by
    simp [coalesceClient, hk, hf, hslf]
  rw [hL, hC]
  refine ⟨rfl, ?_, ?_, rfl, ?_, ?_, ?_, ?_⟩
  · rw [rget_rdel_ne _ _ _ _ (by decide),
      rget_rsetex_ne s t "k:lock" "locked" 100 t' "k" (by decide)]
    exact rget_none_mono s t t' "k" hk ht
  · exact rget_rdel_self _ _ _
  · rw [rget_rsetex_ne s t "k:computing" "1" 50 t' "k" (by decide)]
    exact rget_none_mono s t t' "k" hk ht
  · rw [rget_rsetex_ne s t "k:computing" "1" 50 t' "k:result" (by decide)]
    exact rget_none_mono s t t' "k:result" hsl ht
  · intro hlt
    rw [rget_rsetex_self]
    simp [hlt]
  · intro hge
    rw [rget_rsetex_self]
    have hnot : ¬ t' < t + 50 := by omega
    simp [hnot]

/-- Witness for C2 (amended) on the cold store at instants 0 and 60. -/
theorem claim_C2_witness :
    (lockClient (.error ()) emptyEnv coldStore 0 "k").ret = .error ()
      ∧ rget (lockClient (.error ()) emptyEnv coldStore 0 "k").store 60 "k" = none
      ∧ rget (lockClient (.error ()) emptyEnv coldStore 0 "k").store 0 "k:lock" =
          none
      ∧ (coalesceClient (.error ()) emptyEnv coldStore 0 "k").ret = .error ()
      ∧ rget (coalesceClient (.error ()) emptyEnv coldStore 0 "k").store 60 "k" =
          none
      ∧ rget (coalesceClient (.error ()) emptyEnv coldStore 0 "k").store 60
          "k:result" = none
      ∧ (60 < 0 + 50 →
          rget (coalesceClient (.error ()) emptyEnv coldStore 0 "k").store 60
            "k:computing" = some "1")
      ∧ (0 + 50 ≤ 60 →
          rget (coalesceClient (.error ()) emptyEnv coldStore 0 "k").store 60
            "k:computing" = none) :=
  claim_C2_amended coldStore 0 60 emptyEnv (by decide) (by decide) (by decide)
    (by decide) (by decide)

/-- C3 (counterexample): the claim that a waiter whose deadline elapses
re-attempts `tryAcquire` and, if still denied, computes is false in both
variants: the lock-based waiter that times out performs exactly one
acquire attempt over its whole run (it computes directly, with no second
`tryAcquire`, and its result is discarded — the run yields no value),
and the coalescing waiter that times out never computes at all. -/
theorem claim_C3_counterexample :
    countE isAcquireEv (lockClient (.ok "cv") emptyEnv lockHeldStore 0 "k").trace = 1
      ∧ countE isComputeEv
          (lockClient (.ok "cv") emptyEnv lockHeldStore 0 "k").trace = 1
      ∧ (lockClient (.ok "cv") emptyEnv lockHeldStore 0 "k").ret = .ok none
      ∧ countE isComputeEv
          (coalesceClient (.ok "cv") emptyEnv flagSetStore 0 "k").trace = 0
      ∧ (coalesceClient (.ok "cv") emptyEnv flagSetStore 0 "k").ret = .ok none :=
  ⟨by decide, by decide, rfl, by decide, rfl⟩

/-- C3 (amended): a lock-variant waiter that never observes the canonical
entry falls back to computing exactly at its own wait deadline — after
its 20 polls of one decisecond each (2 s, well before the 10-s `fillTTL`)
— but does so without re-attempting `tryAcquire` and discards the result;
a coalescing waiter that never observes the result slot gives up at its
own 3-second deadline (30 polls) without computing at all.  Neither
blocks beyond its deadline. -/
theorem claim_C3_amended (s s2 : Store) (t : Nat) (env : Nat → Store)
    (v w w' : String)
    (hk : rget s t "k" = none) (hl : rget s t "k:lock" = some w)
    (hnone : ∀ j, j < 20 → rget (env j) (t + j + 1) "k" = none)
    (hk2 : rget s2 t "k" = none) (hf2 : rget s2 t "k:computing" = some w')
    (hnone2 : ∀ j, j < 30 → rget (env j) (t + j) "k:result" = none) :
    (lockClient (.ok v) env s t "k").trace =
        .getCanonical false :: .acquire false ::
          List.replicate 20 (.getCanonical false) ++ [.compute true]
      ∧ (lockClient (.ok v) env s t "k").ret = .ok none
      ∧ (coalesceClient (.ok v) env s2 t "k").trace =
          .getCanonical false :: .getFlag true :: List.replicate 30 (.getSlot false)
      ∧ (coalesceClient (.ok v) env s2 t "k").ret = .ok none := by
  have hloop := lockWaitLoop_none env t "k" 20 0 (fun j hj => by
    simpa using hnone j hj)
  have hloop2 := coalesceWaitLoop_none env t "k:result" 30 0 (fun j hj => by
    simpa using hnone2 j hj)
  refine ⟨?_, ?_, ?_, ?_⟩ <;>
    simp [lockClient, coalesceClient, rsetnx, hk, hl, hk2, hf2, hloop, hloop2]

/-- Witness for C3 (amended): lock held by another process, computing
flag set by another process, and no other client ever writing. -/
theorem claim_C3_witness :
    (lockClient (.ok "cv") emptyEnv lockHeldStore 0 "k").trace =
        .getCanonical false :: .acquire false ::
          List.replicate 20 (.getCanonical false) ++ [.compute true]
      ∧ (lockClient (.ok "cv") emptyEnv lockHeldStore 0 "k").ret = .ok none
      ∧ (coalesceClient (.ok "cv") emptyEnv flagSetStore 0 "k").trace =
          .getCanonical false :: .getFlag true :: List.replicate 30 (.getSlot false)
      ∧ (coalesceClient (.ok "cv") emptyEnv flagSetStore 0 "k").ret = .ok none :=
  claim_C3_amended lockHeldStore flagSetStore 0 emptyEnv "cv" "locked" "1"
    (by decide) (by decide) (fun j _ => by simp [emptyEnv, coldStore, rget])
    (by decide) (by decide) (fun j _ => by simp [emptyEnv, coldStore, rget])

/-- C5 (counterexample): the claim that every waiter polls for both the
canonical entry and the result slot and adopts whichever appears first is
false: with the canonical entry present (value `"vv"`) at every instant a
coalescing waiter polls, but the result slot absent, the waiter times out
and returns nothing instead of adopting the canonical value — it only
ever polls the result slot. -/
theorem claim_C5_counterexample :
    (∀ i, i < 30 → rget (canonEnv i) (0 + i) "k" = some "vv")
      ∧ (coalesceClient (.ok "cv") canonEnv flagSetStore 0 "k").ret = .ok none :=
  ⟨by decide, rfl⟩

/-- C5 (amended): each waiter polls exactly one location at its fixed
0.1-second interval and adopts only from it: the lock-based waiter polls
the canonical cache entry and returns it when present, and the
coalescing waiter polls the result slot, adopting it (and copying it into
the canonical entry) when present. -/
theorem claim_C5_amended (s s2 : Store) (t : Nat) (env : Nat → Store)
    (c : Except Unit String) (v u w w' : String)
    (hk : rget s t "k" = none) (hl : rget s t "k:lock" = some w)
    (henv : rget (env 0) (t + 1) "k" = some v)
    (hk2 : rget s2 t "k" = none) (hf2 : rget s2 t "k:computing" = some w')
    (henv2 : rget (env 0) t "k:result" = some u) :
    (lockClient c env s t "k").ret = .ok (some v)
      ∧ (lockClient c env s t "k").trace =
          [.getCanonical false, .acquire false, .getCanonical true]
      ∧ (coalesceClient c env s2 t "k").ret = .ok (some u)
      ∧ (coalesceClient c env s2 t "k").trace =
          [.getCanonical false, .getFlag true, .getSlot true, .writeCanonical 100] := by
  refine ⟨?_, ?_, ?_, ?_⟩ <;>
    simp [lockClient, coalesceClient, lockWaitLoop, coalesceWaitLoop, rsetnx,
      hk, hl, henv, hk2, hf2, henv2]

/-- Witness for C5 (amended): another process holds the lease and the
environment exposes the respective polled key at the first poll. -/
theorem claim_C5_witness :
    (lockClient (.ok "cv") bothEnv lockHeldStore 0 "k").ret = .ok (some "vv")
      ∧ (lockClient (.ok "cv") bothEnv lockHeldStore 0 "k").trace =
          [.getCanonical false, .acquire false, .getCanonical true]
      ∧ (coalesceClient (.ok "cv") bothEnv flagSetStore 0 "k").ret = .ok (some "sv")
      ∧ (coalesceClient (.ok "cv") bothEnv flagSetStore 0 "k").trace =
          [.getCanonical false, .getFlag true, .getSlot true, .writeCanonical 100] :=
  claim_C5_amended lockHeldStore flagSetStore 0 bothEnv (.ok "cv")
    "vv" "sv" "locked" "1" (by decide) (by decide) (by decide) (by decide)
    (by decide) (by decide)

/-- C6 (counterexample): the claim that a caller granted the lease
re-checks once more and, if a value is present, adopts it, releases the
lease, and returns without computing is false in both variants: the
coalescing filler that finds the result slot on its re-check does adopt
it and return without computing, but does not release its lease — the
`computing` flag is still live after it returns; and the lock-based
filler performs no re-check at all: its trace goes directly from the
granted acquire to the computation. -/
theorem claim_C6_counterexample :
    (coalesceClient (.ok "cv") emptyEnv slotStore 0 "k").ret = .ok (some "w")
      ∧ countE isComputeEv
          (coalesceClient (.ok "cv") emptyEnv slotStore 0 "k").trace = 0
      ∧ rget (coalesceClient (.ok "cv") emptyEnv slotStore 0 "k").store 0
          "k:computing" = some "1"
      ∧ (lockClient (.ok "cv") emptyEnv coldStore 0 "k").trace =
          [.getCanonical false, .acquire true, .compute true,
           .writeCanonical 100, .releaseLease] :=
  ⟨rfl, by decide, by decide, by decide⟩

/-- C6 (amended): after being granted fill rights, the lock-based filler
computes immediately with no re-check, while the coalescing filler does
re-check the result slot after setting the `computing` flag and, when a
value is present, adopts it, writes the canonical entry, and returns
without computing — but without releasing the flag, which stays live
until its 5-second TTL expires. -/
theorem claim_C6_amended (s s2 : Store) (t t' : Nat) (env : Nat → Store)
    (v u : String)
    (hk : rget s t "k" = none) (hl : rget s t "k:lock" = none)
    (hk2 : rget s2 t "k" = none) (hf2 : rget s2 t "k:computing" = none)
    (hsl2 : rget s2 t "k:result" = some u) :
    (lockClient (.ok v) env s t "k").trace =
        [.getCanonical false, .acquire true, .compute true,
         .writeCanonical 100, .releaseLease]
      ∧ (coalesceClient (.ok v) env s2 t "k").ret = .ok (some u)
      ∧ (coalesceClient (.ok v) env s2 t "k").trace =
          [.getCanonical false, .getFlag false, .setFlag, .getSlot true,
           .writeCanonical 100]
      ∧ (t' < t + 50 →
          rget (coalesceClient (.ok v) env s2 t "k").store t' "k:computing" =
            some "1")
      ∧ (t + 50 ≤ t' →
          rget (coalesceClient (.ok v) env s2 t "k").store t' "k:computing" =
            none) := by
  have hsl1 : rget (rsetex s2 t "k:computing" "1" 50) t "k:result" = some u := by
    rw [rget_rsetex_ne s2 t "k:computing" "1" 50 t "k:result" (by decide)]
    exact hsl2
  have hC : coalesceClient (.ok v) env s2 t "k" =
      ⟨.ok (some u), rsetex (rsetex s2 t "k:computing" "1" 50) t "k" u 100,
        [.getCanonical false, .getFlag false, .setFlag, .getSlot true,
         .writeCanonical 100]⟩ := by
    simp [coalesceClient, hk2, hf2, hsl1]
  refine ⟨?_, ?_, ?_, ?_, ?_⟩
  · simp [lockClient, rsetnx, hk, hl]
  · rw [hC]
  · rw [hC]
  · intro hlt
    rw [hC]
    show rget _ t' "k:computing" = some "1"
    rw [rget_rsetex_ne _ t "k" u 100 t' "k:computing" (by decide), rget_rsetex_self]
    simp [hlt]
  · intro hge
    rw [hC]
    show rget _ t' "k:computing" = none
    rw [rget_rsetex_ne _ t "k" u 100 t' "k:computing" (by decide), rget_rsetex_self]
    have hnot : ¬ t' < t + 50 := by omega
    simp [hnot]

/-- Witness for C6 (amended): cold store for the lock filler, result slot
already committed for the coalescing filler, checked at instant 60. -/
theorem claim_C6_witness :
    (lockClient (.ok "cv") emptyEnv coldStore 0 "k").trace =
        [.getCanonical false, .acquire true, .compute true,
         .writeCanonical 100, .releaseLease]
      ∧ (coalesceClient (.ok "cv") emptyEnv slotStore 0 "k").ret = .ok (some "w")
      ∧ (coalesceClient (.ok "cv") emptyEnv slotStore 0 "k").trace =
          [.getCanonical false, .getFlag false, .setFlag, .getSlot true,
           .writeCanonical 100]
      ∧ (60 < 0 + 50 →
          rget (coalesceClient (.ok "cv") emptyEnv slotStore 0 "k").store 60
            "k:computing" = some "1")
      ∧ (0 + 50 ≤ 60 →
          rget (coalesceClient (.ok "cv") emptyEnv slotStore 0 "k").store 60
            "k:computing" = none) :=
  claim_C6_amended coldStore slotStore 0 60 emptyEnv "cv" "w" (by decide)
    (by decide) (by decide) (by decide) (by decide)

/-- C7: on success the coalescing filler commits in exactly the claimed
order — result slot first, then the canonical entry with the full
caller TTL, then the lease release, and only then does the call return
the computed value; both the slot and the canonical entry hold the value
at commit time. -/
theorem claim_C7_commit_order (s : Store) (t : Nat) (v : String)
    (env : Nat → Store)
    (hk : rget s t "k" = none) (hf : rget s t "k:computing" = none)
    (hsl : rget s t "k:result" = none) :
    (coalesceClient (.ok v) env s t "k").ret = .ok (some v)
      ∧ (coalesceClient (.ok v) env s t "k").trace =
          [.getCanonical false, .getFlag false, .setFlag, .getSlot false,
           .compute true, .writeSlot, .writeCanonical 100, .releaseLease]
      ∧ rget (coalesceClient (.ok v) env s t "k").store (t + 20) "k:result" =
          some v
      ∧ rget (coalesceClient (.ok v) env s t "k").store (t + 20) "k" = some v := by
  have hsl1 : rget (rsetex s t "k:computing" "1" 50) t "k:result" = none := by
    rw [rget_rsetex_ne s t "k:computing" "1" 50 t "k:result" (by decide)]
    exact hsl
  have hC : coalesceClient (.ok v) env s t "k" =
      ⟨.ok (some v),
        rdel (rsetex (rsetex (rsetex s t "k:computing" "1" 50) (t + 20)
          "k:result" v 50) (t + 20) "k" v 100) "k:computing",
        [.getCanonical false, .getFlag false, .setFlag, .getSlot false,
         .compute true, .writeSlot, .writeCanonical 100, .releaseLease]⟩ := by
    simp [coalesceClient, hk, hf, hsl1]
  rw [hC]
  refine ⟨rfl, rfl, ?_, ?_⟩
  · show rget _ (t + 20) "k:result" = some v
    rw [rget_rdel_ne _ _ _ _ (by decide),
      rget_rsetex_ne _ (t + 20) "k" v 100 (t + 20) "k:result" (by decide),
      rget_rsetex_self]
    simp
  · show rget _ (t + 20) "k" = some v
    rw [rget_rdel_ne _ _ _ _ (by decide), rget_rsetex_self]
    simp

/-- Witness for C7 on the cold store. -/
theorem claim_C7_witness :
    (coalesceClient (.ok "cv") emptyEnv coldStore 0 "k").ret = .ok (some "cv")
      ∧ (coalesceClient (.ok "cv") emptyEnv coldStore 0 "k").trace =
          [.getCanonical false, .getFlag false, .setFlag, .getSlot false,
           .compute true, .writeSlot, .writeCanonical 100, .releaseLease]
      ∧ rget (coalesceClient (.ok "cv") emptyEnv coldStore 0 "k").store 20
          "k:result" = some "cv"
      ∧ rget (coalesceClient (.ok "cv") emptyEnv coldStore 0 "k").store 20 "k" =
          some "cv" :=
  claim_C7_commit_order coldStore 0 "cv" emptyEnv (by decide) (by decide)
    (by decide)

/-- C10: in the coalescing variant, both adoption paths write the adopted
value to the canonical entry with the full 10-second entry TTL before
returning: a waiter that finds the result slot at its first poll commits
it to the canonical key with expiry exactly `t + 100`, and so does a
lease-holder that finds the slot on its race re-check. -/
theorem claim_C10_adopter_commits (s s2 : Store) (t : Nat) (env : Nat → Store)
    (c : Except Unit String) (v u w : String)
    (hk : rget s t "k" = none) (hf : rget s t "k:computing" = some w)
    (hsl : rget (env 0) t "k:result" = some v)
    (hk2 : rget s2 t "k" = none) (hf2 : rget s2 t "k:computing" = none)
    (hsl2 : rget s2 t "k:result" = some u) :
    (coalesceClient c env s t "k").ret = .ok (some v)
      ∧ (coalesceClient c env s t "k").trace =
          [.getCanonical false, .getFlag true, .getSlot true, .writeCanonical 100]
      ∧ (∀ x, rget (coalesceClient c env s t "k").store x "k" =
          if x < t + 100 then some v else none)
      ∧ (coalesceClient c env s2 t "k").ret = .ok (some u)
      ∧ (∀ x, rget (coalesceClient c env s2 t "k").store x "k" =
          if x < t + 100 then some u else none) := by
  have hsl1 : rget (rsetex s2 t "k:computing" "1" 50) t "k:result" = some u := by
    rw [rget_rsetex_ne s2 t "k:computing" "1" 50 t "k:result" (by decide)]
    exact hsl2
  have hW : coalesceClient c env s t "k" =
      ⟨.ok (some v), rsetex (env 0) (t + 0) "k" v 100,
        [.getCanonical false, .getFlag true, .getSlot true, .writeCanonical 100]⟩ := by
    simp [coalesceClient, coalesceWaitLoop, hk, hf, hsl]
  have hR : coalesceClient c env s2 t "k" =
      ⟨.ok (some u), rsetex (rsetex s2 t "k:computing" "1" 50) t "k" u 100,
        [.getCanonical false, .getFlag false, .setFlag, .getSlot true,
         .writeCanonical 100]⟩ := by
    simp [coalesceClient, hk2, hf2, hsl1]
  rw [hW, hR]
  refine ⟨rfl, rfl, ?_, rfl, ?_⟩
  · intro x
    show rget _ x "k" = _
    rw [rget_rsetex_self]
  · intro x
    show rget _ x "k" = _
    rw [rget_rsetex_self]

/-- Witness for C10: waiter adoption with the slot present at the first
poll, and race-path adoption with the slot already committed. -/
theorem claim_C10_witness :
    (coalesceClient (.ok "cv") slotEnv flagSetStore 0 "k").ret = .ok (some "sv")
      ∧ (coalesceClient (.ok "cv") slotEnv flagSetStore 0 "k").trace =
          [.getCanonical false, .getFlag true, .getSlot true, .writeCanonical 100]
      ∧ (∀ x, rget (coalesceClient (.ok "cv") slotEnv flagSetStore 0 "k").store x
          "k" = if x < 0 + 100 then some "sv" else none)
      ∧ (coalesceClient (.ok "cv") slotEnv slotStore 0 "k").ret = .ok (some "w")
      ∧ (∀ x, rget (coalesceClient (.ok "cv") slotEnv slotStore 0 "k").store x
          "k" = if x < 0 + 100 then some "w" else none) :=
  claim_C10_adopter_commits flagSetStore slotStore 0 slotEnv (.ok "cv") "sv" "w"
    "1" (by decide) (by decide) (by decide) (by decide) (by decide) (by decide)

/-- C4 (counterexample): the claim that in early-refresh mode every
reader past soft expiry returns the existing stale value immediately and
exactly one background fill is triggered through the lease logic is
false: the early-expiration strategy has no soft expiry and no lease at
all.  In the lab's own scenario (entry pre-populated at instant 0 with a
2-second TTL, clients started at instant 25), two concurrent readers
both observe a miss, both invoke the computation (two fills, not one),
and each returns its own freshly computed value — neither returns the
pre-refresh value `"initial_value"`, which was still being served one
instant before expiry. -/
theorem claim_C4_counterexample :
    countE isComputeEv (erun [0, 1, 0, 1, 0, 1] (einit 2)).trace = 2
      ∧ (erun [0, 1, 0, 1, 0, 1] (einit 2)).clients.get? 0 =
          some (.done (some "data_k_0"))
      ∧ (erun [0, 1, 0, 1, 0, 1] (einit 2)).clients.get? 1 =
          some (.done (some "data_k_1"))
      ∧ rget einitStore 19 "k" = some "initial_value" :=
  ⟨by decide, by decide, by decide, by decide⟩

/-- C4 (amended): the early-expiration strategy has a single expiry, not
a soft/hard pair: a reader strictly before the pre-populated entry's
expiry returns the cached value immediately with no fill and no writes,
while a reader at or after the expiry observes a miss, blocks on the
computation itself, returns the freshly computed value, and rewrites the
entry with a 5-second TTL; no lease is involved, so concurrent
post-expiry readers may each compute (see the counterexample). -/
theorem claim_C4_amended (t : Nat) (v : String) :
    (t < 20 → earlyClient (.ok v) einitStore t "k" =
        ⟨.ok (some "initial_value"), einitStore, [.getCanonical true]⟩)
      ∧ (20 ≤ t →
          (earlyClient (.ok v) einitStore t "k").ret = .ok (some v)
            ∧ (earlyClient (.ok v) einitStore t "k").trace =
                [.getCanonical false, .compute true, .writeCanonical 50]
            ∧ (∀ x, rget (earlyClient (.ok v) einitStore t "k").store x "k" =
                if x < t + 20 + 50 then some v else none)) := by
  constructor
  · intro hlt
    have hhit : rget einitStore t "k" = some "initial_value" := by
      rw [einitStore, rget_rsetex_self]
      simp [hlt]
    simp [earlyClient, hhit]
  · intro hge
    have hmiss : rget einitStore t "k" = none := by
      rw [einitStore, rget_rsetex_self]
      have hnot : ¬ t < 0 + 20 := by omega
      simp [hnot]
    have hE : earlyClient (.ok v) einitStore t "k" =
        ⟨.ok (some v), rsetex einitStore (t + 20) "k" v 50,
          [.getCanonical false, .compute true, .writeCanonical 50]⟩ := by
      simp [earlyClient, hmiss]
    rw [hE]
    refine ⟨rfl, rfl, ?_⟩
    intro x
    show rget _ x "k" = _
    rw [rget_rsetex_self]

/-- Witness for C4 (amended): a read at instant 5 serves the cached
value; a read at instant 25 computes and rewrites the entry. -/
theorem claim_C4_witness :
    earlyClient (.ok "cv") einitStore 5 "k" =
        ⟨.ok (some "initial_value"), einitStore, [.getCanonical true]⟩
      ∧ (earlyClient (.ok "cv") einitStore 25 "k").ret = .ok (some "cv")
      ∧ (earlyClient (.ok "cv") einitStore 25 "k").trace =
          [.getCanonical false, .compute true, .writeCanonical 50]
      ∧ (∀ x, rget (earlyClient (.ok "cv") einitStore 25 "k").store x "k" =
          if x < 25 + 20 + 50 then some "cv" else none) := by
  have h1 := (claim_C4_amended 5 "cv").1 (by decide)
  have h2 := (claim_C4_amended 25 "cv").2 (by decide)
  exact ⟨h1, h2.1, h2.2.1, h2.2.2⟩

end Stampede
